import Mathlib

/-!
Verification development for the harbor_sync webhook receiver
(src/tools/harbor_sync/webhook_receiver.py).

The development shallowly embeds the three components of the service:

* the payload normalizer `extract_harbor_resources` (lines 234-301), over a
  JSON value type with Python attribute/type errors made explicit;
* the reconciliation engine `upsert_repo_tag` / `process_pull_event` /
  `process_delete_event` (lines 127-230), over an explicit relational store
  with a psycopg2-style connection (committed snapshot plus the current
  transaction view; `connection.rollback()` resets the view to the snapshot);
* the dispatcher loop of the `webhook` route (lines 329-342).

Concurrent writers are modelled by a `Race` oracle: at most one of the four
INSERT points can observe a row committed by another transaction just before
the INSERT executes (`...Race` constructors), or an integrity failure that
leaves no row behind, e.g. a non-uniqueness constraint violation
(`...InsFail` constructors), or the store can be unreachable (`down`).
-/

/-- JSON values as delivered by `request.get_json`.  Numbers are modelled as
integers; no claim depends on float behaviour. -/
inductive Json where
  | null
  | bool (b : Bool)
  | num (n : Int)
  | str (s : String)
  | arr (xs : List Json)
  | obj (kvs : List (String × Json))

/-- Python exceptions that the modelled code can raise. -/
inductive PyErr where
  | integrityError
  | valueError
  | typeError
  | attributeError
  | operationalError
deriving DecidableEq, Repr

/-- Python truthiness of a JSON value: `None`, `False`, `0`, `""`, `[]` and
`{}` are falsy, everything else is truthy. -/
def truthy : Json → Bool
  | Json.null => false
  | Json.bool b => b
  | Json.num n => n != 0
  | Json.str s => !s.isEmpty
  | Json.arr xs => !xs.isEmpty
  | Json.obj kvs => !kvs.isEmpty

/-- First binding of a key in an object, mirroring Python dict lookup. -/
def lookupKV : List (String × Json) → String → Option Json
  | [], _ => none
  | (k, v) :: rest, key => if k == key then some v else lookupKV rest key

/-- Python `x.get(k, d)`: on a dict returns the stored value (even when the
stored value is `None`) or the default; on any other value raises
`AttributeError`. -/
def pyGetD : Json → String → Json → Except PyErr Json
  | Json.obj kvs, k, d =>
    Except.ok (match lookupKV kvs k with | some v => v | none => d)
  | _, _, _ => Except.error PyErr.attributeError

/-- Python `x.lower()`: defined on strings, raises `AttributeError`
otherwise. -/
def strLower (s : String) : String := String.mk (s.data.map Char.toLower)

/-- Python `x.lower()` on a JSON value. -/
def pyLower : Json → Except PyErr String
  | Json.str s => Except.ok (strLower s)
  | _ => Except.error PyErr.attributeError

/-- Python iteration `for x in v`: lists yield their elements, strings yield
their characters, dicts yield their keys; other values raise `TypeError`. -/
def pyIter : Json → Except PyErr (List Json)
  | Json.arr xs => Except.ok xs
  | Json.str s => Except.ok (s.data.map (fun ch => Json.str (String.mk [ch])))
  | Json.obj kvs => Except.ok (kvs.map (fun kv => Json.str kv.1))
  | _ => Except.error PyErr.typeError

/-- Python `xs.append(v)` (as a pure value): defined on lists, raises
`AttributeError` otherwise. -/
def pyAppend : Json → Json → Except PyErr Json
  | Json.arr xs, v => Except.ok (Json.arr (xs ++ [v]))
  | _, _ => Except.error PyErr.attributeError

/-- Check whether one character list occurs at the head of another. -/
def startsWithL : List Char → List Char → Bool
  | [], _ => true
  | _ :: _, [] => false
  | a :: as, b :: bs => a == b && startsWithL as bs

/-- Check whether `needle` occurs anywhere inside `hay` (Python `in` on
strings). -/
def hasSubL (needle : List Char) : List Char → Bool
  | [] => startsWithL needle []
  | b :: bs => startsWithL needle (b :: bs) || hasSubL needle bs

/-- Python `'delete' in s`. -/
def hasDeleteSub (s : String) : Bool := hasSubL "delete".data s.data

/-- Line 244: `data_node = payload.get('event_data') or payload.get('artifact')
or payload`. -/
def locateDataNode (payload : Json) : Except PyErr Json := do
  let ed ← pyGetD payload "event_data" Json.null
  if truthy ed then pure ed
  else
    let ar ← pyGetD payload "artifact" Json.null
    if truthy ar then pure ar else pure payload

/-- Is the JSON value a mapping (`isinstance(x, dict)`)? -/
def isObj : Json → Bool
  | Json.obj _ => true
  | _ => false

/-- Line 286: `t.get('name') if isinstance(t, dict) else t`. -/
def tagName : Json → Json
  | Json.obj kvs => (lookupKV kvs "name").getD Json.null
  | j => j

/-- Lines 261-287, the body of `for res in res_list`: resolve the local
repository name (falling back to the global one), collect the tags, and emit
one pair per tag, or a single `(repo, None)` pair when no tag was found. -/
def resPairs (globalRepo : Json) (res : Json) : Except PyErr (List (Json × Json)) := do
  let x1 ← pyGetD res "repository" Json.null
  let x2 ← if truthy x1 then pure x1 else pyGetD res "repo" Json.null
  let repoObj ← if truthy x2 then pure x2 else pyGetD res "resource" Json.null
  let cr0 : Json :=
    match repoObj with
    | Json.obj kvs =>
      let a := (lookupKV kvs "repo_full_name").getD Json.null
      if truthy a then a else (lookupKV kvs "name").getD Json.null
    | Json.str s => Json.str s
    | _ => Json.null
  let currentRepo := if truthy cr0 then cr0 else globalRepo
  let tags0 ← pyGetD res "tags" (Json.arr [])
  let tg ← pyGetD res "tag" Json.null
  let tagsJ ← if truthy tg then pyAppend tags0 tg else pure tags0
  if truthy currentRepo then
    if truthy tagsJ then do
      let ts ← pyIter tagsJ
      pure (ts.map (fun t => (currentRepo, tagName t)))
    else pure [(currentRepo, Json.null)]
  else pure []

/-- Lines 248-287: the primary extraction strategy over the located data
node — global repository name, resource list (with the singleton `resource`
fallback), and the per-resource loop. -/
def strategyPairs (dn : Json) : Except PyErr (List (Json × Json)) := do
  let gri ← pyGetD dn "repository" (Json.obj [])
  let a ← pyGetD gri "repo_full_name" Json.null
  let globalRepo ← if truthy a then pure a else pyGetD gri "name" Json.null
  let rl ← pyGetD dn "resources" (Json.arr [])
  let resList ←
    if truthy rl then pure rl
    else do
      let r1 ← pyGetD dn "resource" Json.null
      if truthy r1 then pure (Json.arr [r1]) else pure rl
  let elems ← pyIter resList
  elems.foldlM (fun acc res => do
    let ps ← resPairs globalRepo res
    pure (acc ++ ps)) ([] : List (Json × Json))

/-- Line 293: `payload.get('repository', {}).get('name')`. -/
def rootRepoName (payload : Json) : Except PyErr Json := do
  let rr ← pyGetD payload "repository" (Json.obj [])
  pyGetD rr "name" Json.null

/-- Line 294: `(payload.get('push_data') or {}).get('tag')`. -/
def rootPushTag (payload : Json) : Except PyErr Json := do
  let pd ← pyGetD payload "push_data" Json.null
  let pdD := if truthy pd then pd else Json.obj []
  pyGetD pdD "tag" Json.null

/-- Line 298: `payload.get('type', '').lower()`. -/
def rootTypeLower (payload : Json) : Except PyErr String := do
  let ty ← pyGetD payload "type" (Json.str "")
  pyLower ty

/-- Lines 291-299: the legacy fallback shape. -/
def legacyPairs (payload : Json) : Except PyErr (List (Json × Json)) := do
  let repo ← rootRepoName payload
  let tagv ← rootPushTag payload
  if truthy repo && truthy tagv then pure [(repo, tagv)]
  else
    if truthy repo then do
      let tl ← rootTypeLower payload
      if hasDeleteSub tl then pure [(repo, Json.null)] else pure []
    else pure []

/-- Lines 234-301: the full normalizer `extract_harbor_resources`.  A
non-mapping data node returns no pairs at once; the legacy fallback runs only
when the primary strategy produced zero pairs. -/
def extract_harbor_resources (payload : Json) : Except PyErr (List (Json × Json)) := do
  let dn ← locateDataNode payload
  match dn with
  | Json.obj kvs => do
    let prs ← strategyPairs (Json.obj kvs)
    if prs.isEmpty then legacyPairs payload else pure prs
  | _ => pure []

/-- Line 317-318 of the `webhook` route: classification of the event.
`event_type = (payload.get('type') or payload.get('action') or '').lower()`,
`is_delete = 'delete' in event_type`. -/
def eventIsDelete (payload : Json) : Except PyErr Bool := do
  let t ← pyGetD payload "type" Json.null
  let a ← if truthy t then pure t else pyGetD payload "action" Json.null
  let v := if truthy a then a else Json.str ""
  let l ← pyLower v
  pure (hasDeleteSub l)

/-- The payload of the C3 golden case. -/
def payloadC3 : Json :=
  Json.obj [("type", Json.str "DELETE_ARTIFACT"),
            ("event_data", Json.obj
              [("repository", Json.obj [("name", Json.str "ns/img")]),
               ("resources", Json.arr [])])]

/-- The payload of the C4 counterexample: the located data node
(`event_data`) is a truthy non-mapping, while the payload root carries a
perfectly good legacy shape. -/
def payloadC4 : Json :=
  Json.obj [("event_data", Json.str "x"),
            ("repository", Json.obj [("name", Json.str "ns/img")]),
            ("push_data", Json.obj [("tag", Json.str "v1")]),
            ("type", Json.str "push")]

/-- A pure legacy-shape payload (no `event_data`/`artifact`, so the data node
is the payload root and the primary strategy finds nothing). -/
def payloadLegacy : Json :=
  Json.obj [("repository", Json.obj [("name", Json.str "ns/img")]),
            ("push_data", Json.obj [("tag", Json.str "v1")])]

/-- Reduction of monadic bind on a successful `Except` value. -/
theorem exBindOk {α β : Type} (a : α) (f : α → Except PyErr β) :
    (Except.ok a : Except PyErr α) >>= f = f a := rfl

/-- C3, counterexample.  For the payload
`(type: DELETE_ARTIFACT, event_data: (repository: (name: ns/img), resources: []))`
the code returns the empty pair list, not the single pair
`("ns/img", absent)` the claim asserts: the repository-level-delete pair is
only emitted inside the per-resource loop, which never runs when `resources`
is empty, and the legacy fallback finds no `repository.name` at the payload
root. -/
theorem c3_counterexample :
    extract_harbor_resources payloadC3 = Except.ok [] ∧
    extract_harbor_resources payloadC3 ≠ Except.ok [(Json.str "ns/img", Json.null)] := by
  refine ⟨rfl, fun h => ?_⟩
  rw [show extract_harbor_resources payloadC3 = Except.ok [] from rfl] at h
  exact List.noConfusion (Except.ok.inj h)

/-- C3, amended.  For the delete payload with an empty `resources` list the
normalizer returns no pairs at all (a repository-level delete pair is only
emitted per resource entry, and the legacy fallback needs `repository.name`
at the payload root); the event is still classified as a delete. -/
theorem c3_amended :
    extract_harbor_resources payloadC3 = Except.ok [] ∧
    eventIsDelete payloadC3 = Except.ok true := ⟨rfl, rfl⟩

/-- C4, counterexample.  When the located data node is a truthy non-mapping,
the code returns no pairs without ever consulting the legacy shape, even
though `repository.name` and `push_data.tag` are present at the payload
root — contradicting the claim, which demands the legacy push pair. -/
theorem c4_counterexample :
    extract_harbor_resources payloadC4 = Except.ok [] ∧
    extract_harbor_resources payloadC4 ≠ Except.ok [(Json.str "ns/img", Json.str "v1")] := by
  refine ⟨rfl, fun h => ?_⟩
  rw [show extract_harbor_resources payloadC4 = Except.ok [] from rfl] at h
  exact List.noConfusion (Except.ok.inj h)

/-- C4, amended.  When the located data node is not a mapping the normalizer
returns no pairs without consulting the legacy shape; when the data node is a
mapping and the primary strategy yields zero pairs, the normalizer falls back
to the legacy shape, which emits one push pair when both `repository.name`
and `push_data.tag` are truthy at the payload root, and one delete pair with
absent tag when `repository.name` is truthy, `push_data.tag` is not, and the
lower-cased type string contains "delete". -/
theorem c4_amended :
    (∀ payload dn, locateDataNode payload = Except.ok dn → isObj dn = false →
      extract_harbor_resources payload = Except.ok []) ∧
    (∀ payload dn, locateDataNode payload = Except.ok dn → isObj dn = true →
      strategyPairs dn = Except.ok [] →
      extract_harbor_resources payload = legacyPairs payload) ∧
    (∀ payload repo tagv, rootRepoName payload = Except.ok repo →
      rootPushTag payload = Except.ok tagv → truthy repo = true → truthy tagv = true →
      legacyPairs payload = Except.ok [(repo, tagv)]) ∧
    (∀ payload repo tagv tl, rootRepoName payload = Except.ok repo →
      rootPushTag payload = Except.ok tagv → truthy repo = true → truthy tagv = false →
      rootTypeLower payload = Except.ok tl →
      legacyPairs payload =
        Except.ok (if hasDeleteSub tl then [(repo, Json.null)] else [])) := by
  refine ⟨?_, ?_, ?_, ?_⟩
  · intro payload dn h1 h2
    unfold extract_harbor_resources
    rw [h1, exBindOk]
    cases dn <;> first | rfl | simp_all [isObj]
  · intro payload dn h1 h2 h3
    unfold extract_harbor_resources
    rw [h1, exBindOk]
    cases dn <;> simp_all [isObj]
    rfl
  · intro payload repo tagv h1 h2 h3 h4
    unfold legacyPairs
    rw [h1, exBindOk, h2, exBindOk, h3, h4]
    rfl
  · intro payload repo tagv tl h1 h2 h3 h4 h5
    unfold legacyPairs
    rw [h1, exBindOk, h2, exBindOk, h3, h4]
    show (if (true && false : Bool) = true then _ else _) = _
    rw [if_neg (by simp)]
    rw [if_pos rfl]
    rw [h5, exBindOk]
    split <;> rfl

/-- C4, witness for the amended theorem: on a concrete legacy-shape payload
the fallback emits the push pair. -/
theorem c4_amended_witness :
    extract_harbor_resources payloadLegacy = Except.ok [(Json.str "ns/img", Json.str "v1")] := by
  have h2 := c4_amended.2.1 payloadLegacy payloadLegacy rfl rfl rfl
  have h3 := c4_amended.2.2.1 payloadLegacy (Json.str "ns/img") (Json.str "v1") rfl rfl rfl rfl
  rw [h2, h3]

/-- C5, code bug.  The spec's deliberate policy is that unrecognizable shapes
produce an empty pair list, never an error; but for the JSON object
`(repository: "x")` the code evaluates `data_node.get('repository', {})` to
the string and then calls `.get('repo_full_name')` on it, raising
`AttributeError` (which the `webhook` route does not catch). -/
theorem c5_code_bug :
    extract_harbor_resources (Json.obj [("repository", Json.str "x")]) =
      Except.error PyErr.attributeError := rfl

/-- A row of `repos(id, full_name)`. -/
structure RepoRow where
  id : Nat
  full_name : String
deriving DecidableEq, Repr

/-- A row of `tags(id, repository_id, tag)`. -/
structure TagRow where
  id : Nat
  repository_id : Nat
  tag : String
deriving DecidableEq, Repr

/-- A row of `image_pulls(tag_id, is_pulled, last_pulled_at)`.  Timestamps
are abstract naturals. -/
structure PullRow where
  tag_id : Nat
  is_pulled : Bool
  last_pulled_at : Option Nat
deriving DecidableEq, Repr

/-- A row of `allowed_images(name, tag, tag_id, raw_name, raw_tag, is_global,
status, created_at, updated_at, deleted_at)`. -/
structure AllowedRow where
  name : String
  tag : String
  tag_id : Nat
  raw_name : String
  raw_tag : String
  is_global : Bool
  status : String
  created_at : Nat
  updated_at : Nat
  deleted_at : Option Nat
deriving DecidableEq, Repr

/-- The four tables plus the id sequences of `repos` and `tags`. -/
structure Store where
  repos : List RepoRow
  tags : List TagRow
  image_pulls : List PullRow
  allowed_images : List AllowedRow
  next_repo_id : Nat
  next_tag_id : Nat
deriving DecidableEq, Repr

/-- The empty database with both id sequences at 1. -/
def Store.empty : Store := ⟨[], [], [], [], 1, 1⟩

/-- A psycopg2 connection: `base` is the committed state visible to other
transactions (and restored by `connection.rollback()`), `cur` is the state
as seen by the current transaction (committed rows plus its own pending
writes). -/
structure Conn where
  base : Store
  cur : Store
deriving DecidableEq, Repr

/-- The commit issued by `get_db_cursor` on normal exit. -/
def commitConn (c : Conn) : Conn := ⟨c.cur, c.cur⟩

/-- A `connection.rollback()`: the whole transaction's pending writes are
discarded (psycopg2 has no statement-level rollback), and the connection is
back at the committed state. -/
def rollbackConn (c : Conn) : Conn := ⟨c.base, c.base⟩

/-- Interference by a concurrent transaction, at most one point per call:
`repoRace r` (resp. `tagRace`, `pullRace`, `allowedRace`) commits the given
row just before the corresponding INSERT statement executes, so that the
INSERT can hit the uniqueness constraint; `repoInsFail` (and friends) makes
the INSERT fail with an `IntegrityError` that leaves no row behind (a
non-uniqueness integrity violation — the "deeper store inconsistency" of the
spec); `down` makes the store unreachable for the whole call; `quiet` is
interference-free execution. -/
inductive Race where
  | quiet
  | repoRace (r : RepoRow)
  | repoInsFail
  | tagRace (t : TagRow)
  | tagInsFail
  | pullRace (p : PullRow)
  | pullInsFail
  | allowedRace (a : AllowedRow)
  | allowedInsFail
  | down
deriving DecidableEq, Repr

/-- Does the race make the whole call fail (store unreachable)? -/
def isDown : Race → Bool
  | Race.down => true
  | _ => false

/-- Commit of a concurrent `repos` row (both the committed state and the
current transaction's read view pick it up, READ COMMITTED). -/
def mergeRepo : Race → Conn → Conn
  | Race.repoRace r, c =>
    ⟨{ c.base with repos := c.base.repos ++ [r] },
     { c.cur with repos := c.cur.repos ++ [r] }⟩
  | _, c => c

/-- Commit of a concurrent `tags` row. -/
def mergeTag : Race → Conn → Conn
  | Race.tagRace t, c =>
    ⟨{ c.base with tags := c.base.tags ++ [t] },
     { c.cur with tags := c.cur.tags ++ [t] }⟩
  | _, c => c

/-- Commit of a concurrent `image_pulls` row. -/
def mergePull : Race → Conn → Conn
  | Race.pullRace p, c =>
    ⟨{ c.base with image_pulls := c.base.image_pulls ++ [p] },
     { c.cur with image_pulls := c.cur.image_pulls ++ [p] }⟩
  | _, c => c

/-- Commit of a concurrent `allowed_images` row. -/
def mergeAllowed : Race → Conn → Conn
  | Race.allowedRace a, c =>
    ⟨{ c.base with allowed_images := c.base.allowed_images ++ [a] },
     { c.cur with allowed_images := c.cur.allowed_images ++ [a] }⟩
  | _, c => c

/-- Line 130/138: `SELECT id FROM repos WHERE full_name=%s`. -/
def selectRepo (s : Store) (n : String) : Option RepoRow :=
  s.repos.find? (fun r => r.full_name == n)

/-- Line 143/151: `SELECT id FROM tags WHERE repository_id=%s AND tag=%s`. -/
def selectTag (s : Store) (rid : Nat) (tg : String) : Option TagRow :=
  s.tags.find? (fun t => t.repository_id == rid && t.tag == tg)

/-- Line 134: `INSERT INTO repos (full_name) VALUES (%s) RETURNING id`.
Returns `none` when the statement raises `IntegrityError` (uniqueness
conflict with a row the racer just committed, or an injected integrity
failure). -/
def insertRepoStmt (race : Race) (c0 : Conn) (n : String) : Conn × Option Nat :=
  if race = Race.repoInsFail then (c0, none)
  else
    let c := mergeRepo race c0
    if c.cur.repos.any (fun r => r.full_name == n) then (c, none)
    else
      ({ c with cur := { c.cur with
            repos := c.cur.repos ++ [⟨c.cur.next_repo_id, n⟩],
            next_repo_id := c.cur.next_repo_id + 1 } },
       some c.cur.next_repo_id)

/-- Line 147: `INSERT INTO tags (repository_id, tag) VALUES (%s, %s)
RETURNING id`. -/
def insertTagStmt (race : Race) (c0 : Conn) (rid : Nat) (tg : String) : Conn × Option Nat :=
  if race = Race.tagInsFail then (c0, none)
  else
    let c := mergeTag race c0
    if c.cur.tags.any (fun t => t.repository_id == rid && t.tag == tg) then (c, none)
    else
      ({ c with cur := { c.cur with
            tags := c.cur.tags ++ [⟨c.cur.next_tag_id, rid, tg⟩],
            next_tag_id := c.cur.next_tag_id + 1 } },
       some c.cur.next_tag_id)

/-- Lines 129-140: get-or-create of the repository.  Returns the repo id, or
`none` when even the re-read after a conflict finds nothing. -/
def repoPhase (race : Race) (c : Conn) (n : String) : Conn × Option Nat :=
  match selectRepo c.cur n with
  | some r => (c, some r.id)
  | none =>
    match insertRepoStmt race c n with
    | (c1, some rid) => (c1, some rid)
    | (c1, none) =>
      let c2 := rollbackConn c1
      match selectRepo c2.cur n with
      | some r => (c2, some r.id)
      | none => (c2, none)

/-- Lines 142-154: get-or-create of the tag. -/
def tagPhase (race : Race) (c : Conn) (rid : Nat) (tg : String) : Conn × Option Nat :=
  match selectTag c.cur rid tg with
  | some t => (c, some t.id)
  | none =>
    match insertTagStmt race c rid tg with
    | (c1, some tid) => (c1, some tid)
    | (c1, none) =>
      let c2 := rollbackConn c1
      match selectTag c2.cur rid tg with
      | some t => (c2, some t.id)
      | none => (c2, none)

/-- Lines 127-154 plus the unguarded subscript on line 140: `upsert_repo_tag`.
When the repository identity cannot be read even after the conflict retry,
`repo_row[0]` subscripts `None` and raises `TypeError`; an unresolved tag
returns `None` (line 154). -/
def upsert_repo_tag (race : Race) (c : Conn) (repo_name tag_name : String) :
    Conn × Except PyErr (Option Nat) :=
  match repoPhase race c repo_name with
  | (c1, none) => (c1, Except.error PyErr.typeError)
  | (c1, some rid) =>
    let r := tagPhase race c1 rid tag_name
    (r.1, Except.ok r.2)

/-- Line 164/171: `UPDATE image_pulls SET is_pulled=true, last_pulled_at=%s
WHERE tag_id=%s`, returning the new store and the statement's rowcount. -/
def updatePullsStmt (s : Store) (tid : Nat) (now : Nat) : Store × Nat :=
  ({ s with image_pulls := s.image_pulls.map (fun p =>
      if p.tag_id == tid then { p with is_pulled := true, last_pulled_at := some now } else p) },
   (s.image_pulls.filter (fun p => p.tag_id == tid)).length)

/-- Line 167: `INSERT INTO image_pulls (tag_id, is_pulled, last_pulled_at)
VALUES (%s, true, %s)`.  The boolean is false when the statement raises
`IntegrityError`. -/
def insertPullStmt (race : Race) (c0 : Conn) (tid : Nat) (now : Nat) : Conn × Bool :=
  if race = Race.pullInsFail then (c0, false)
  else
    let c := mergePull race c0
    if c.cur.image_pulls.any (fun p => p.tag_id == tid) then (c, false)
    else
      ({ c with cur := { c.cur with
            image_pulls := c.cur.image_pulls ++ [⟨tid, true, some now⟩] } },
       true)

/-- Lines 163-171: the PullRecord sub-step of `process_pull_event` —
update, fallback insert, and on a conflict a connection rollback followed by
the retried update. -/
def pullPhase (race : Race) (c : Conn) (tid : Nat) (now : Nat) : Conn :=
  let u := updatePullsStmt c.cur tid now
  let c1 : Conn := { c with cur := u.1 }
  if u.2 = 0 then
    match insertPullStmt race c1 tid now with
    | (c2, true) => c2
    | (c2, false) =>
      let c3 := rollbackConn c2
      { c3 with cur := (updatePullsStmt c3.cur tid now).1 }
  else c1

/-- Lines 174-178/193-197: `UPDATE allowed_images SET tag_id=%s, raw_name=%s,
raw_tag=%s WHERE name=%s AND tag=%s`, with its rowcount. -/
def updateAllowedStmt (s : Store) (tid : Nat) (repo tg : String) : Store × Nat :=
  ({ s with allowed_images := s.allowed_images.map (fun a =>
      if a.name == repo && a.tag == tg then
        { a with tag_id := tid, raw_name := repo, raw_tag := tg } else a) },
   (s.allowed_images.filter (fun a => a.name == repo && a.tag == tg)).length)

/-- Lines 183-189: `INSERT INTO allowed_images (name, tag, tag_id, raw_name,
raw_tag, is_global, status, created_at, updated_at) VALUES
(%s, %s, %s, %s, %s, true, 'approved', %s, %s)`. -/
def insertAllowedStmt (race : Race) (c0 : Conn) (tid : Nat) (repo tg : String) (now : Nat) :
    Conn × Bool :=
  if race = Race.allowedInsFail then (c0, false)
  else
    let c := mergeAllowed race c0
    if c.cur.allowed_images.any (fun a => a.name == repo && a.tag == tg) then (c, false)
    else
      ({ c with cur := { c.cur with
            allowed_images := c.cur.allowed_images ++
              [⟨repo, tg, tid, repo, tg, true, "approved", now, now, none⟩] } },
       true)

/-- Lines 173-197: the AllowedImage sub-step of `process_pull_event`. -/
def allowedPhase (race : Race) (c : Conn) (tid : Nat) (repo tg : String) (now : Nat) : Conn :=
  let u := updateAllowedStmt c.cur tid repo tg
  let c1 : Conn := { c with cur := u.1 }
  if u.2 = 0 then
    match insertAllowedStmt race c1 tid repo tg now with
    | (c2, true) => c2
    | (c2, false) =>
      let c3 := rollbackConn c2
      { c3 with cur := (updateAllowedStmt c3.cur tid repo tg).1 }
  else c1

/-- Python truthiness of the resolved tag id (`if not tag_id`). -/
def optTruthy : Option Nat → Bool
  | none => false
  | some n => n != 0

/-- Lines 156-199: `process_pull_event(repo, tag)` — the reconcilePush
operation.  Takes the committed database, returns the committed database
after the call together with the exception surfaced to the caller, if any
(`get_db_cursor` commits on success and rolls back and re-raises on error). -/
def process_pull_event (race : Race) (db : Store) (repo tg : String) (now : Nat) :
    Store × Option PyErr :=
  if isDown race then (db, some PyErr.operationalError)
  else
    match upsert_repo_tag race ⟨db, db⟩ repo tg with
    | (c, Except.error e) => (c.base, some e)
    | (c, Except.ok tidOpt) =>
      if optTruthy tidOpt then
        let tid := tidOpt.getD 0
        let c1 := pullPhase race c tid now
        let c2 := allowedPhase race c1 tid repo tg now
        ((commitConn c2).base, none)
      else (c.base, some PyErr.valueError)

/-- Python truthiness of an optional tag string (`if tag:`). -/
def strOptTruthy : Option String → Bool
  | none => false
  | some s => !s.isEmpty

/-- The WHERE clause of line 205-210: `name=%s` and, when the tag argument is
truthy, also `tag=%s`. -/
def deleteMatchA (repo : String) (tagOpt : Option String) (a : AllowedRow) : Bool :=
  a.name == repo && (if strOptTruthy tagOpt then a.tag == tagOpt.getD "" else true)

/-- Line 205-212: `UPDATE allowed_images SET deleted_at=%s WHERE name=%s
[AND tag=%s]`. -/
def updateAllowedDeletedStmt (s : Store) (repo : String) (tagOpt : Option String) (now : Nat) :
    Store :=
  { s with allowed_images := s.allowed_images.map (fun a =>
      if deleteMatchA repo tagOpt a then { a with deleted_at := some now } else a) }

/-- The join condition of lines 216-228: the pull row's tag belongs (through
`tags` and `repos`) to the named repository, and to the named tag when one
was given. -/
def deleteMatchP (s : Store) (repo : String) (tagOpt : Option String) (p : PullRow) : Bool :=
  s.tags.any (fun t =>
    t.id == p.tag_id &&
    (if strOptTruthy tagOpt then t.tag == tagOpt.getD "" else true) &&
    s.repos.any (fun r => r.id == t.repository_id && r.full_name == repo))

/-- Lines 215-228: `UPDATE image_pulls SET is_pulled=false FROM tags t,
repos r WHERE ...`. -/
def resetPullsStmt (s : Store) (repo : String) (tagOpt : Option String) : Store :=
  { s with image_pulls := s.image_pulls.map (fun p =>
      if deleteMatchP s repo tagOpt p then { p with is_pulled := false } else p) }

/-- Lines 201-230: `process_delete_event(repo, tag=None)` — the
reconcileDelete operation. -/
def process_delete_event (race : Race) (db : Store) (repo : String) (tagOpt : Option String)
    (now : Nat) : Store × Option PyErr :=
  if isDown race then (db, some PyErr.operationalError)
  else
    let c : Conn := ⟨db, db⟩
    let c1 : Conn := { c with cur := updateAllowedDeletedStmt c.cur repo tagOpt now }
    let c2 : Conn := { c1 with cur := resetPullsStmt c1.cur repo tagOpt }
    ((commitConn c2).base, none)

/-- The initial committed store of the C1 scenario: the repository, tag and
pull-record rows exist, no `allowed_images` row yet. -/
def dbC1 : Store := ⟨[⟨1, "ns/img"⟩], [⟨1, 1, "v1"⟩], [⟨1, false, none⟩], [], 2, 2⟩

/-- The `allowed_images` row a concurrent transaction commits between the
engine's zero-row UPDATE and its INSERT in the C1 scenario. -/
def racerRowC1 : AllowedRow := ⟨"ns/img", "v1", 1, "ns/img", "v1", true, "approved", 5, 5, none⟩

/-- C1, code bug.  The claim (and the spec, and the code's own comments
"Rollback the failed statement", "Required to reset state in sub-transaction")
say that on a uniqueness conflict only the failed sub-statement is abandoned
and the writes of earlier sub-steps of the same call are preserved and
committed.  But `cur.connection.rollback()` is a psycopg2
whole-transaction rollback: in this run the AllowedImage INSERT loses the
race, and the rollback also discards the PullRecord update made by the
earlier sub-step of the same call — the call reports success, yet the
committed pull row still has `is_pulled=false, last_pulled_at=NULL`
(the claimed behaviour would leave `is_pulled=true, last_pulled_at=7`),
and the remaining statements commit in a second transaction. -/
theorem c1_code_bug :
    process_pull_event (Race.allowedRace racerRowC1) dbC1 "ns/img" "v1" 7 =
      ({ dbC1 with allowed_images := [racerRowC1] }, none) ∧
    ({ dbC1 with allowed_images := [racerRowC1] } : Store).image_pulls =
      [⟨1, false, none⟩] := by
  exact ⟨by decide, by decide⟩

/-- C2, confirmed.  Applying `process_pull_event` twice with the same
`(repo, tag)` to the empty store yields exactly one Repository row, one Tag
row, one AllowedImage row with `status='approved'` and `is_global=true`, and
one PullRecord row with `is_pulled=true`; the only difference after the
second application is the PullRecord's `last_pulled_at` timestamp (`t2`
instead of `t1`). -/
theorem c2_idempotent (repo tg : String) (t1 t2 : Nat) :
    process_pull_event Race.quiet Store.empty repo tg t1 =
      ({repos := [⟨1, repo⟩], tags := [⟨1, 1, tg⟩], image_pulls := [⟨1, true, some t1⟩],
        allowed_images := [⟨repo, tg, 1, repo, tg, true, "approved", t1, t1, none⟩],
        next_repo_id := 2, next_tag_id := 2}, none) ∧
    process_pull_event Race.quiet
        (process_pull_event Race.quiet Store.empty repo tg t1).1 repo tg t2 =
      ({repos := [⟨1, repo⟩], tags := [⟨1, 1, tg⟩], image_pulls := [⟨1, true, some t2⟩],
        allowed_images := [⟨repo, tg, 1, repo, tg, true, "approved", t1, t1, none⟩],
        next_repo_id := 2, next_tag_id := 2}, none) := by
  have h1 : process_pull_event Race.quiet Store.empty repo tg t1 =
      ({repos := [⟨1, repo⟩], tags := [⟨1, 1, tg⟩], image_pulls := [⟨1, true, some t1⟩],
        allowed_images := [⟨repo, tg, 1, repo, tg, true, "approved", t1, t1, none⟩],
        next_repo_id := 2, next_tag_id := 2}, none) := by
    simp [process_pull_event, isDown, upsert_repo_tag, repoPhase, tagPhase, selectRepo, selectTag,
          insertRepoStmt, insertTagStmt, mergeRepo, mergeTag, Store.empty, optTruthy, pullPhase,
          updatePullsStmt, insertPullStmt, mergePull, allowedPhase, updateAllowedStmt,
          insertAllowedStmt, mergeAllowed, commitConn]
  refine ⟨h1, ?_⟩
  rw [h1]
  simp [process_pull_event, isDown, upsert_repo_tag, repoPhase, tagPhase, selectRepo, selectTag,
        insertRepoStmt, insertTagStmt, mergeRepo, mergeTag, optTruthy, pullPhase,
        updatePullsStmt, insertPullStmt, mergePull, allowedPhase, updateAllowedStmt,
        insertAllowedStmt, mergeAllowed, commitConn]

/-- C10, confirmed.  `process_delete_event` never inserts or deletes rows:
it maps the `allowed_images` table, changing only `deleted_at` (to `now`) on
rows matching the WHERE clause, and maps the `image_pulls` table, changing
only `is_pulled` (to `false`) on rows matched through the join; `repos`,
`tags`, the id sequences, and every other column (including
`allowed_images.updated_at` and `image_pulls.last_pulled_at`) are left
unchanged, and no error is raised. -/
theorem c10_delete_frame (db : Store) (repo : String) (tagOpt : Option String) (now : Nat) :
    process_delete_event Race.quiet db repo tagOpt now =
      ({ db with
          allowed_images := db.allowed_images.map (fun a =>
            if deleteMatchA repo tagOpt a then { a with deleted_at := some now } else a),
          image_pulls := db.image_pulls.map (fun p =>
            if deleteMatchP db repo tagOpt p then { p with is_pulled := false } else p) },
       none) := by
  simp [process_delete_event, isDown, commitConn, updateAllowedDeletedStmt, resetPullsStmt,
        deleteMatchP]

/-- Interference-free execution of the repository get-or-create: it always
resolves an id, it never touches the committed state or any table other than
`repos`, and the resolved id names a `repos` row for the requested name. -/
theorem repoPhase_quiet (c : Conn) (n : String) :
    ∃ rid c2, repoPhase Race.quiet c n = (c2, some rid) ∧
      c2.base = c.base ∧
      c2.cur.tags = c.cur.tags ∧
      c2.cur.image_pulls = c.cur.image_pulls ∧
      c2.cur.allowed_images = c.cur.allowed_images ∧
      c2.cur.next_tag_id = c.cur.next_tag_id ∧
      (⟨rid, n⟩ : RepoRow) ∈ c2.cur.repos := by
  unfold repoPhase
  cases h : selectRepo c.cur n with
  | some r =>
    refine ⟨r.id, c, rfl, rfl, rfl, rfl, rfl, rfl, ?_⟩
    have hf : c.cur.repos.find? (fun r => r.full_name == n) = some r := h
    have hm := List.mem_of_find?_eq_some hf
    have hp := List.find?_some hf
    have he : r.full_name = n := eq_of_beq hp
    cases r with
    | mk i fn => cases he; exact hm
  | none =>
    have hall : ∀ x ∈ c.cur.repos, ¬((fun r => r.full_name == n) x = true) :=
      List.find?_eq_none.mp h
    have hany : (c.cur.repos.any (fun r => r.full_name == n)) = false := by
      rw [List.any_eq_false]
      intro x hx
      simpa using hall x hx
    have hi : insertRepoStmt Race.quiet c n =
        ({ c with cur := { c.cur with
              repos := c.cur.repos ++ [⟨c.cur.next_repo_id, n⟩],
              next_repo_id := c.cur.next_repo_id + 1 } },
         some c.cur.next_repo_id) := by
      simp [insertRepoStmt, mergeRepo, hany]
    refine ⟨c.cur.next_repo_id,
      { c with cur := { c.cur with
            repos := c.cur.repos ++ [⟨c.cur.next_repo_id, n⟩],
            next_repo_id := c.cur.next_repo_id + 1 } },
      ?_, rfl, rfl, rfl, rfl, rfl, ?_⟩
    · rw [hi]
    · simp

/-- Interference-free execution of the tag get-or-create: it always resolves
an id, the committed state and the other tables are untouched, the resolved
id names a `tags` row for `(rid, tg)`, and the id is either the sequence
value or the id of a pre-existing row. -/
theorem tagPhase_quiet (c : Conn) (rid : Nat) (tg : String) :
    ∃ tid c2, tagPhase Race.quiet c rid tg = (c2, some tid) ∧
      c2.base = c.base ∧
      c2.cur.repos = c.cur.repos ∧
      c2.cur.image_pulls = c.cur.image_pulls ∧
      c2.cur.allowed_images = c.cur.allowed_images ∧
      (⟨tid, rid, tg⟩ : TagRow) ∈ c2.cur.tags ∧
      (tid = c.cur.next_tag_id ∨ ∃ t ∈ c.cur.tags, t.id = tid) := by
  unfold tagPhase
  cases h : selectTag c.cur rid tg with
  | some t =>
    have hf : c.cur.tags.find? (fun t => t.repository_id == rid && t.tag == tg) = some t := h
    refine ⟨t.id, c, rfl, rfl, rfl, rfl, rfl, ?_, Or.inr ⟨t, List.mem_of_find?_eq_some hf, rfl⟩⟩
    have hm := List.mem_of_find?_eq_some hf
    have hp := List.find?_some hf
    have hp' : (t.repository_id == rid) = true ∧ (t.tag == tg) = true := by
      simpa using hp
    have hp1 : t.repository_id = rid := eq_of_beq hp'.1
    have hp2 : t.tag = tg := eq_of_beq hp'.2
    cases t with
    | mk i r s => cases hp1; cases hp2; exact hm
  | none =>
    have hall := List.find?_eq_none.mp h
    have hany : (c.cur.tags.any (fun t => t.repository_id == rid && t.tag == tg)) = false := by
      rw [List.any_eq_false]
      intro x hx
      simpa using hall x hx
    have hi : insertTagStmt Race.quiet c rid tg =
        ({ c with cur := { c.cur with
              tags := c.cur.tags ++ [⟨c.cur.next_tag_id, rid, tg⟩],
              next_tag_id := c.cur.next_tag_id + 1 } },
         some c.cur.next_tag_id) := by
      simp [insertTagStmt, mergeTag, hany]
    refine ⟨c.cur.next_tag_id,
      { c with cur := { c.cur with
            tags := c.cur.tags ++ [⟨c.cur.next_tag_id, rid, tg⟩],
            next_tag_id := c.cur.next_tag_id + 1 } },
      ?_, rfl, rfl, rfl, rfl, ?_, Or.inl rfl⟩
    · rw [hi]
    · simp

/-- Interference-free execution of the PullRecord sub-step: the insert can
never hit a conflict (it only runs when the update matched no row), so no
rollback happens; the committed state and every table except `image_pulls`
are untouched. -/
theorem pullPhase_quiet (c : Conn) (tid now : Nat) :
    (pullPhase Race.quiet c tid now).base = c.base ∧
    (pullPhase Race.quiet c tid now).cur.repos = c.cur.repos ∧
    (pullPhase Race.quiet c tid now).cur.tags = c.cur.tags ∧
    (pullPhase Race.quiet c tid now).cur.allowed_images = c.cur.allowed_images ∧
    (pullPhase Race.quiet c tid now).cur.next_repo_id = c.cur.next_repo_id ∧
    (pullPhase Race.quiet c tid now).cur.next_tag_id = c.cur.next_tag_id := by
  unfold pullPhase
  by_cases h0 : (c.cur.image_pulls.filter (fun p => p.tag_id == tid)).length = 0
  · have hnil : c.cur.image_pulls.filter (fun p => p.tag_id == tid) = [] :=
      List.length_eq_zero.mp h0
    have hall : ∀ p ∈ c.cur.image_pulls, (p.tag_id == tid) = false := by
      intro p hp
      cases hb : (p.tag_id == tid) with
      | false => rfl
      | true =>
        exfalso
        have hmem : p ∈ c.cur.image_pulls.filter (fun p => p.tag_id == tid) :=
          List.mem_filter.mpr ⟨hp, hb⟩
        rw [hnil] at hmem
        exact List.not_mem_nil p hmem
    have hmap : c.cur.image_pulls.map (fun p =>
        if p.tag_id == tid then { p with is_pulled := true, last_pulled_at := some now } else p) =
        c.cur.image_pulls := by
      conv_rhs => rw [← List.map_id c.cur.image_pulls]
      apply List.map_congr_left
      intro p hp
      simp [hall p hp]
    have hany : ((updatePullsStmt c.cur tid now).1.image_pulls.any
        (fun p => p.tag_id == tid)) = false := by
      rw [List.any_eq_false]
      intro p hp
      simp only [updatePullsStmt, hmap] at hp
      simpa using hall p hp
    simp only [updatePullsStmt, hmap, insertPullStmt, mergePull]
    simp only [updatePullsStmt, hmap] at hany
    simp [h0, hany, updatePullsStmt, hmap]
  · simp [updatePullsStmt, h0]

/-- When a filter selects nothing, the predicate is false on every element. -/
theorem filterNilAll {α : Type} (p : α → Bool) (l : List α)
    (h : (l.filter p).length = 0) : ∀ x ∈ l, p x = false := by
  intro x hx
  cases hb : p x with
  | false => rfl
  | true =>
    exfalso
    have hmem : x ∈ l.filter p := List.mem_filter.mpr ⟨hx, hb⟩
    rw [List.length_eq_zero.mp h] at hmem
    exact List.not_mem_nil x hmem

/-- A guarded row update is the identity when the guard never fires. -/
theorem mapIdOfAllFalse {α : Type} (p : α → Bool) (f : α → α) (l : List α)
    (h : ∀ x ∈ l, p x = false) :
    l.map (fun x => if p x then f x else x) = l := by
  conv_rhs => rw [← List.map_id l]
  apply List.map_congr_left
  intro x hx
  simp [h x hx]

/-- Interference-free execution of the AllowedImage sub-step when the UPDATE
matched at least one row: the INSERT fallback is not reached and the result
is exactly the updated view. -/
theorem allowedPhase_quiet_of_match (c : Conn) (tid : Nat) (repo tg : String) (now : Nat)
    (h : (c.cur.allowed_images.filter (fun a => a.name == repo && a.tag == tg)).length ≠ 0) :
    allowedPhase Race.quiet c tid repo tg now =
      { c with cur := (updateAllowedStmt c.cur tid repo tg).1 } := by
  unfold allowedPhase
  simp [updateAllowedStmt, h]

/-- The projection of an AllowedImage row that the auto-approval invariant
talks about. -/
def projGS (a : AllowedRow) : Bool × String := (a.is_global, a.status)

/-- An `allowed_images` INSERT under no interference and with no conflicting
row appends exactly the auto-approved row. -/
theorem insertAllowedStmt_quiet_ok (c : Conn) (tid : Nat) (repo tg : String) (now : Nat)
    (hany : (c.cur.allowed_images.any (fun a => a.name == repo && a.tag == tg)) = false) :
    insertAllowedStmt Race.quiet c tid repo tg now =
      ({ c with cur := { c.cur with allowed_images := c.cur.allowed_images ++
          [⟨repo, tg, tid, repo, tg, true, "approved", now, now, none⟩] } }, true) := by
  simp [insertAllowedStmt, mergeAllowed, hany]

/-- Interference-free execution of the AllowedImage sub-step when the UPDATE
matched no row: the guarded update is the identity, the INSERT cannot
conflict, and the result appends exactly the auto-approved row. -/
theorem allowedPhase_quiet_of_nomatch (c : Conn) (tid : Nat) (repo tg : String) (now : Nat)
    (h0 : (c.cur.allowed_images.filter (fun a => a.name == repo && a.tag == tg)).length = 0) :
    allowedPhase Race.quiet c tid repo tg now =
      { c with cur := { c.cur with allowed_images :=
          c.cur.allowed_images ++
            [⟨repo, tg, tid, repo, tg, true, "approved", now, now, none⟩] } } := by
  have hall := filterNilAll (fun a => a.name == repo && a.tag == tg) c.cur.allowed_images h0
  have hmap : c.cur.allowed_images.map (fun a =>
      if a.name == repo && a.tag == tg then
        { a with tag_id := tid, raw_name := repo, raw_tag := tg } else a) =
      c.cur.allowed_images :=
    mapIdOfAllFalse _ _ _ hall
  have hany : (c.cur.allowed_images.any (fun a => a.name == repo && a.tag == tg)) = false := by
    rw [List.any_eq_false]
    intro a ha
    simpa using hall a ha
  have hu2 : (updateAllowedStmt c.cur tid repo tg).2 = 0 := h0
  have hanyU : (({ c with cur := (updateAllowedStmt c.cur tid repo tg).1 } : Conn)
      |>.cur.allowed_images.any (fun a => a.name == repo && a.tag == tg)) = false := by
    show ((c.cur.allowed_images.map (fun a =>
        if a.name == repo && a.tag == tg then
          { a with tag_id := tid, raw_name := repo, raw_tag := tg } else a)).any
        (fun a => a.name == repo && a.tag == tg)) = false
    rw [hmap]
    exact hany
  simp only [allowedPhase]
  rw [if_pos hu2]
  rw [insertAllowedStmt_quiet_ok { c with cur := (updateAllowedStmt c.cur tid repo tg).1 }
    tid repo tg now hanyU]
  show (Conn.mk c.base
      (Store.mk c.cur.repos c.cur.tags c.cur.image_pulls
        ((c.cur.allowed_images.map (fun a =>
          if a.name == repo && a.tag == tg then
            { a with tag_id := tid, raw_name := repo, raw_tag := tg } else a)) ++
          [⟨repo, tg, tid, repo, tg, true, "approved", now, now, none⟩])
        c.cur.next_repo_id c.cur.next_tag_id)) = _
  rw [hmap]

/-- Interference-free execution of the AllowedImage sub-step only produces
rows whose `(is_global, status)` projection either comes from an existing row
or is `(true, "approved")`. -/
theorem allowedPhase_quiet_proj (c : Conn) (tid : Nat) (repo tg : String) (now : Nat) :
    ∀ x ∈ (allowedPhase Race.quiet c tid repo tg now).cur.allowed_images.map projGS,
      x ∈ c.cur.allowed_images.map projGS ∨ x = (true, "approved") := by
  intro x hx
  by_cases h0 : (c.cur.allowed_images.filter (fun a => a.name == repo && a.tag == tg)).length = 0
  · rw [allowedPhase_quiet_of_nomatch c tid repo tg now h0] at hx
    simp only [List.map_append, List.mem_append] at hx
    rcases hx with hx | hx
    · exact Or.inl hx
    · right
      simpa [projGS] using hx
  · rw [allowedPhase_quiet_of_match c tid repo tg now h0] at hx
    simp only [updateAllowedStmt] at hx
    rcases List.mem_map.mp hx with ⟨a, ha, rfl⟩
    rcases List.mem_map.mp ha with ⟨b, hb, rfl⟩
    left
    refine List.mem_map.mpr ⟨b, hb, ?_⟩
    by_cases hmatch : (b.name == repo && b.tag == tg) = true <;> simp [projGS, hmatch]

/-- One engine operation, as the dispatcher issues them sequentially. -/
inductive Ev where
  | push (repo tg : String) (now : Nat)
  | del (repo : String) (tagOpt : Option String) (now : Nat)

/-- Sequential interference-free execution of a list of engine operations
against the committed store. -/
def runEvs : List Ev → Store → Store
  | [], db => db
  | Ev.push r t n :: rest, db => runEvs rest (process_pull_event Race.quiet db r t n).1
  | Ev.del r t n :: rest, db => runEvs rest (process_delete_event Race.quiet db r t n).1

/-- A reconcilePush only produces AllowedImage rows whose
`(is_global, status)` projection comes from an existing row or is
`(true, "approved")`. -/
theorem push_quiet_proj (db : Store) (repo tg : String) (now : Nat) :
    ∀ x ∈ (process_pull_event Race.quiet db repo tg now).1.allowed_images.map projGS,
      x ∈ db.allowed_images.map projGS ∨ x = (true, "approved") := by
  obtain ⟨rid, c2, hrepo, hbase2, htags2, hpulls2, hallow2, hnext2, hmem2⟩ :=
    repoPhase_quiet ⟨db, db⟩ repo
  obtain ⟨tid, c3, htag, hbase3, hrepos3, hpulls3, hallow3, hmemT, hidT⟩ :=
    tagPhase_quiet c2 rid tg
  have hup : upsert_repo_tag Race.quiet ⟨db, db⟩ repo tg = (c3, Except.ok (some tid)) := by
    unfold upsert_repo_tag
    simp only [hrepo, htag]
  intro x hx
  unfold process_pull_event at hx
  rw [if_neg (by decide), hup] at hx
  dsimp only at hx
  by_cases hT : optTruthy (some tid) = true
  · rw [if_pos hT] at hx
    have hx2 : x ∈ (allowedPhase Race.quiet (pullPhase Race.quiet c3 tid now)
        tid repo tg now).cur.allowed_images.map projGS := hx
    rcases allowedPhase_quiet_proj (pullPhase Race.quiet c3 tid now) tid repo tg now x hx2
      with h | h
    · rw [(pullPhase_quiet c3 tid now).2.2.2.1, hallow3, hallow2] at h
      exact Or.inl h
    · exact Or.inr h
  · rw [if_neg hT] at hx
    have hx2 : x ∈ c3.base.allowed_images.map projGS := hx
    rw [hbase3, hbase2] at hx2
    exact Or.inl hx2

/-- A reconcileDelete never changes any row's `(is_global, status)`
projection and creates no rows. -/
theorem delete_quiet_proj (db : Store) (repo : String) (tagOpt : Option String) (now : Nat) :
    ∀ x ∈ (process_delete_event Race.quiet db repo tagOpt now).1.allowed_images.map projGS,
      x ∈ db.allowed_images.map projGS := by
  intro x hx
  have hx2 : x ∈ (db.allowed_images.map (fun a =>
      if deleteMatchA repo tagOpt a then { a with deleted_at := some now } else a)).map
      projGS := hx
  rw [List.map_map] at hx2
  rcases List.mem_map.mp hx2 with ⟨a, ha, rfl⟩
  refine List.mem_map.mpr ⟨a, ha, ?_⟩
  by_cases hm : deleteMatchA repo tagOpt a = true <;> simp [projGS, hm]

/-- Over any interference-free operation sequence, every AllowedImage
projection in the final store comes from the initial store or is the
auto-approved one. -/
theorem runEvs_proj (evs : List Ev) : ∀ (db : Store) (x : Bool × String),
    x ∈ (runEvs evs db).allowed_images.map projGS →
    x ∈ db.allowed_images.map projGS ∨ x = (true, "approved") := by
  induction evs with
  | nil => intro db x hx; exact Or.inl hx
  | cons e rest ih =>
    intro db x hx
    cases e with
    | push r t n =>
      simp only [runEvs] at hx
      rcases ih _ x hx with h | h
      · exact push_quiet_proj db r t n x h
      · exact Or.inr h
    | del r t n =>
      simp only [runEvs] at hx
      rcases ih _ x hx with h | h
      · exact Or.inl (delete_quiet_proj db r t n x h)
      · exact Or.inr h

/-- C7, confirmed.  In any reachable sequence of reconcilePush and
reconcileDelete calls, every AllowedImage row of the final store either
carries the `(is_global, status)` projection of a row of the initial store
(the engine's updates never touch those two columns) or has
`is_global = true` and `status = "approved"` — every row the engine itself
creates is auto-approved and global, and no engine operation creates a row
with any other status. -/
theorem c7_only_approved (evs : List Ev) (db : Store) (a : AllowedRow)
    (h : a ∈ (runEvs evs db).allowed_images) :
    (a.is_global, a.status) ∈ db.allowed_images.map projGS ∨
      (a.is_global = true ∧ a.status = "approved") := by
  have hx : projGS a ∈ (runEvs evs db).allowed_images.map projGS :=
    List.mem_map_of_mem projGS h
  rcases runEvs_proj evs db (projGS a) hx with h2 | h2
  · exact Or.inl h2
  · right
    have h3 : projGS a = (true, "approved") := h2
    exact ⟨congrArg Prod.fst h3, congrArg Prod.snd h3⟩

/-- C7, witness: a push on the empty store creates exactly the auto-approved
global row. -/
theorem c7_only_approved_witness :
    ((true, "approved") ∈ Store.empty.allowed_images.map projGS ∨
      ((true = true) ∧ ("approved" = "approved"))) :=
  c7_only_approved [Ev.push "r" "t" 0] Store.empty
    ⟨"r", "t", 1, "r", "t", true, "approved", 0, 0, none⟩ (by decide)

/-- Upsert failures are always the `TypeError` from subscripting the
unresolved repository row (line 140), never anything else. -/
theorem upsert_err_typeError (race : Race) (c : Conn) (rn tn : String) (c2 : Conn) (e : PyErr)
    (h : upsert_repo_tag race c rn tn = (c2, Except.error e)) : e = PyErr.typeError := by
  unfold upsert_repo_tag at h
  rcases hrp : repoPhase race c rn with ⟨c1, ro⟩
  rw [hrp] at h
  cases ro with
  | none =>
    have := congrArg Prod.snd h
    simpa using this.symm
  | some rid => simp at h

/-- C6, counterexample.  The claim says the ResolutionError (the code's
`ValueError`) is the only error the engine raises, raised exactly when the
repository or tag identity cannot be read after the conflict retry.  But when
the repository INSERT fails with an integrity violation that leaves no row to
re-read (the spec's "deeper store inconsistency"), line 140 subscripts
`None` and the engine raises `TypeError`, not `ValueError`. -/
theorem c6_counterexample :
    process_pull_event Race.repoInsFail Store.empty "r" "t" 0 =
      (Store.empty, some PyErr.typeError) ∧
    PyErr.typeError ≠ PyErr.valueError := by
  exact ⟨by decide, by decide⟩

/-- C6, amended.  Setting aside store outages, reconcilePush surfaces no
uniqueness-conflict error (`IntegrityError` is always caught): the only
errors it can raise are the `TypeError` from an unresolvable repository
identity and the `ValueError` (the spec's ResolutionError) from an
unresolvable tag identity; reconcileDelete raises nothing. -/
theorem c6_amended (race : Race) (db : Store) (repo tg : String) (tagOpt : Option String)
    (now : Nat) (hrace : race ≠ Race.down) :
    (∀ e, (process_pull_event race db repo tg now).2 = some e →
      e = PyErr.typeError ∨ e = PyErr.valueError) ∧
    (process_delete_event race db repo tagOpt now).2 = none := by
  have hisdown : isDown race = false := by
    cases race <;> first | rfl | exact absurd rfl hrace
  constructor
  · intro e he
    unfold process_pull_event at he
    rw [hisdown] at he
    simp only [Bool.false_eq_true, if_false] at he
    rcases hup : upsert_repo_tag race ⟨db, db⟩ repo tg with ⟨c, r⟩
    rw [hup] at he
    cases r with
    | error e2 =>
      have he2 : e2 = e := by simpa using he
      exact Or.inl (he2 ▸ upsert_err_typeError race ⟨db, db⟩ repo tg c e2 hup)
    | ok tidOpt =>
      dsimp only at he
      by_cases hT : optTruthy tidOpt = true
      · rw [if_pos hT] at he
        simp at he
      · rw [if_neg hT] at he
        have : PyErr.valueError = e := by simpa using he
        exact Or.inr this.symm
  · unfold process_delete_event
    rw [hisdown]
    simp

/-- C6, witness for the amended theorem: the repository-inconsistency run
raises exactly `TypeError`, and a delete raises nothing. -/
theorem c6_amended_witness :
    (PyErr.typeError = PyErr.typeError ∨ PyErr.typeError = PyErr.valueError) ∧
    (process_delete_event Race.repoInsFail Store.empty "r" none 0).2 = none := by
  have h := c6_amended Race.repoInsFail Store.empty "r" "t" none 0 (by decide)
  exact ⟨h.1 PyErr.typeError (by decide), h.2⟩

/-- C8, confirmed.  On a store that is well-formed (tag ids and the tag id
sequence are nonzero) and contains an AllowedImage row matching `(repo, tg)`,
a reconcileDelete followed by a reconcilePush succeeds, and afterwards every
matching AllowedImage row still has `deleted_at` set to the delete's
timestamp (the push never clears it) while its `raw_name`, `raw_tag` and
`tag_id` are updated to the push's values — `tag_id` names the resolved Tag
row for `(repo, tg)`, which itself names the Repository row for `repo`. -/
theorem c8_delete_then_push (db : Store) (repo tg : String) (t1 t2 : Nat)
    (hWFt : ∀ t ∈ db.tags, t.id ≠ 0) (hWFn : db.next_tag_id ≠ 0)
    (hex : ∃ a ∈ db.allowed_images, a.name = repo ∧ a.tag = tg) :
    (process_pull_event Race.quiet
        (process_delete_event Race.quiet db repo (some tg) t1).1 repo tg t2).2 = none ∧
    ∀ a ∈ (process_pull_event Race.quiet
        (process_delete_event Race.quiet db repo (some tg) t1).1 repo tg t2).1.allowed_images,
      a.name = repo → a.tag = tg →
        a.deleted_at = some t1 ∧ a.raw_name = repo ∧ a.raw_tag = tg ∧
        ∃ tr ∈ (process_pull_event Race.quiet
            (process_delete_event Race.quiet db repo (some tg) t1).1 repo tg t2).1.tags,
          tr.id = a.tag_id ∧ tr.tag = tg ∧
          ∃ rr ∈ (process_pull_event Race.quiet
              (process_delete_event Race.quiet db repo (some tg) t1).1 repo tg t2).1.repos,
            rr.id = tr.repository_id ∧ rr.full_name = repo := by
  set db1 : Store := (process_delete_event Race.quiet db repo (some tg) t1).1 with hdb1
  have hd_allowed : db1.allowed_images = db.allowed_images.map (fun a =>
      if deleteMatchA repo (some tg) a then { a with deleted_at := some t1 } else a) := rfl
  have hd_tags : db1.tags = db.tags := rfl
  have hd_next : db1.next_tag_id = db.next_tag_id := rfl
  obtain ⟨rid, c2, hrepo, hbase2, htags2, hpulls2, hallow2, hnext2, hmem2⟩ :=
    repoPhase_quiet ⟨db1, db1⟩ repo
  obtain ⟨tid, c3, htag, hbase3, hrepos3, hpulls3, hallow3, hmemT, hidT⟩ :=
    tagPhase_quiet c2 rid tg
  have htags2x : c2.cur.tags = db1.tags := htags2
  have hallow2x : c2.cur.allowed_images = db1.allowed_images := hallow2
  have hnext2x : c2.cur.next_tag_id = db1.next_tag_id := hnext2
  have hup : upsert_repo_tag Race.quiet ⟨db1, db1⟩ repo tg = (c3, Except.ok (some tid)) := by
    unfold upsert_repo_tag
    simp only [hrepo, htag]
  have htid0 : tid ≠ 0 := by
    rcases hidT with h | ⟨t, ht, hteq⟩
    · rw [h, hnext2x, hd_next]
      exact hWFn
    · rw [htags2x, hd_tags] at ht
      rw [← hteq]
      exact hWFt t ht
  have hT : optTruthy (some tid) = true := by
    simp only [optTruthy, bne_iff_ne, ne_eq]
    exact htid0
  have hpe : process_pull_event Race.quiet db1 repo tg t2 =
      ((allowedPhase Race.quiet (pullPhase Race.quiet c3 tid t2) tid repo tg t2).cur, none) := by
    unfold process_pull_event
    rw [if_neg (by decide), hup]
    dsimp only
    rw [if_pos hT]
    rfl
  have hp4 := pullPhase_quiet c3 tid t2
  have h4allow : (pullPhase Race.quiet c3 tid t2).cur.allowed_images = db1.allowed_images := by
    rw [hp4.2.2.2.1, hallow3, hallow2x]
  have h4tags : (pullPhase Race.quiet c3 tid t2).cur.tags = c3.cur.tags := hp4.2.2.1
  have h4repos : (pullPhase Race.quiet c3 tid t2).cur.repos = c3.cur.repos := hp4.2.1
  have hfname : ∀ x : AllowedRow,
      ((if deleteMatchA repo (some tg) x then { x with deleted_at := some t1 } else x)
        : AllowedRow).name = x.name ∧
      ((if deleteMatchA repo (some tg) x then { x with deleted_at := some t1 } else x)
        : AllowedRow).tag = x.tag := by
    intro x
    by_cases h : deleteMatchA repo (some tg) x = true <;> simp [h]
  have hdmatch : ∀ x : AllowedRow, x.name = repo → x.tag = tg →
      deleteMatchA repo (some tg) x = true := by
    intro x hn ht
    by_cases htg : strOptTruthy (some tg) = true <;> simp [deleteMatchA, htg, hn, ht]
  obtain ⟨a0, ha0, ha0n, ha0t⟩ := hex
  have hcnt : ((pullPhase Race.quiet c3 tid t2).cur.allowed_images.filter
      (fun a => a.name == repo && a.tag == tg)).length ≠ 0 := by
    intro h0
    have hmemb : (if deleteMatchA repo (some tg) a0 then { a0 with deleted_at := some t1 }
        else a0) ∈ (pullPhase Race.quiet c3 tid t2).cur.allowed_images := by
      rw [h4allow, hd_allowed]
      exact List.mem_map_of_mem _ ha0
    have hfalse := filterNilAll _ _ h0 _ hmemb
    rw [(hfname a0).1, (hfname a0).2, ha0n, ha0t] at hfalse
    simp at hfalse
  have hap := allowedPhase_quiet_of_match (pullPhase Race.quiet c3 tid t2) tid repo tg t2 hcnt
  have hfin : process_pull_event Race.quiet db1 repo tg t2 =
      ((updateAllowedStmt (pullPhase Race.quiet c3 tid t2).cur tid repo tg).1, none) := by
    rw [hpe, hap]
  constructor
  · rw [hfin]
  · intro a ha hn ht
    rw [hfin] at ha
    have ha2 : a ∈ ((pullPhase Race.quiet c3 tid t2).cur.allowed_images.map (fun b =>
        if b.name == repo && b.tag == tg then
          { b with tag_id := tid, raw_name := repo, raw_tag := tg } else b)) := ha
    rw [h4allow, hd_allowed] at ha2
    rcases List.mem_map.mp ha2 with ⟨b, hbmem, rfl⟩
    rcases List.mem_map.mp hbmem with ⟨b0, hb0, rfl⟩
    have hupdname : ∀ x : AllowedRow,
        ((if x.name == repo && x.tag == tg then
            { x with tag_id := tid, raw_name := repo, raw_tag := tg } else x)
          : AllowedRow).name = x.name ∧
        ((if x.name == repo && x.tag == tg then
            { x with tag_id := tid, raw_name := repo, raw_tag := tg } else x)
          : AllowedRow).tag = x.tag := by
      intro x
      by_cases h : (x.name == repo && x.tag == tg) = true <;> simp [h]
    have hbn : (if deleteMatchA repo (some tg) b0 then { b0 with deleted_at := some t1 }
        else b0 : AllowedRow).name = repo := by
      rw [← (hupdname _).1]
      exact hn
    have hbt : (if deleteMatchA repo (some tg) b0 then { b0 with deleted_at := some t1 }
        else b0 : AllowedRow).tag = tg := by
      rw [← (hupdname _).2]
      exact ht
    have hb0n : b0.name = repo := by rw [← (hfname b0).1]; exact hbn
    have hb0t : b0.tag = tg := by rw [← (hfname b0).2]; exact hbt
    have hdel : (if deleteMatchA repo (some tg) b0 then { b0 with deleted_at := some t1 }
        else b0 : AllowedRow) = { b0 with deleted_at := some t1 } := by
      rw [if_pos (hdmatch b0 hb0n hb0t)]
    have hpredb : ((if deleteMatchA repo (some tg) b0 then { b0 with deleted_at := some t1 }
        else b0 : AllowedRow).name == repo &&
        (if deleteMatchA repo (some tg) b0 then { b0 with deleted_at := some t1 }
        else b0 : AllowedRow).tag == tg) = true := by
      simp [hbn, hbt]
    rw [hdel] at hpredb ⊢
    rw [if_pos hpredb]
    refine ⟨rfl, rfl, rfl, ⟨tid, rid, tg⟩, ?_, rfl, rfl, ⟨rid, repo⟩, ?_, rfl, rfl⟩
    · have hft : (process_pull_event Race.quiet db1 repo tg t2).1.tags = c3.cur.tags := by
        rw [hfin]
        exact h4tags
      rw [hft]
      exact hmemT
    · have hfr : (process_pull_event Race.quiet db1 repo tg t2).1.repos = c2.cur.repos := by
        rw [hfin]
        show (pullPhase Race.quiet c3 tid t2).cur.repos = c2.cur.repos
        rw [h4repos, hrepos3]
      rw [hfr]
      exact hmem2

/-- A concrete store for the C8 witness: one repo, one tag, one matching
AllowedImage row. -/
def dbC8 : Store :=
  ⟨[⟨1, "r"⟩], [⟨1, 1, "t"⟩], [],
   [⟨"r", "t", 1, "r", "t", true, "approved", 0, 0, none⟩], 2, 2⟩

/-- C8, witness: the delete-then-push run on the concrete store. -/
theorem c8_delete_then_push_witness :
    (process_pull_event Race.quiet
        (process_delete_event Race.quiet dbC8 "r" (some "t") 1).1 "r" "t" 2).2 = none ∧
    ∀ a ∈ (process_pull_event Race.quiet
        (process_delete_event Race.quiet dbC8 "r" (some "t") 1).1 "r" "t" 2).1.allowed_images,
      a.name = "r" → a.tag = "t" →
        a.deleted_at = some 1 ∧ a.raw_name = "r" ∧ a.raw_tag = "t" ∧
        ∃ tr ∈ (process_pull_event Race.quiet
            (process_delete_event Race.quiet dbC8 "r" (some "t") 1).1 "r" "t" 2).1.tags,
          tr.id = a.tag_id ∧ tr.tag = "t" ∧
          ∃ rr ∈ (process_pull_event Race.quiet
              (process_delete_event Race.quiet dbC8 "r" (some "t") 1).1 "r" "t" 2).1.repos,
            rr.id = tr.repository_id ∧ rr.full_name = "r" :=
  c8_delete_then_push dbC8 "r" "t" 1 2 (by decide) (by decide)
    ⟨⟨"r", "t", 1, "r", "t", true, "approved", 0, 0, none⟩, by decide, rfl, rfl⟩

/-- The per-pair environment the dispatcher loop sees: one normalized
`(repo, tag)` pair plus the interference and the clock value for that pair's
reconciliation. -/
structure PairEnv where
  repo : String
  tag : Option String
  race : Race
  now : Nat

/-- Lines 332-336, the body of `for repo, tag in items`: a delete
classification dispatches to `process_delete_event`; otherwise
`process_pull_event` runs only when the tag is truthy (`if tag:`), a falsy
tag being a no-op. -/
def pairAction (isDel : Bool) (db : Store) (pe : PairEnv) : Store × Option PyErr :=
  if isDel then process_delete_event pe.race db pe.repo pe.tag pe.now
  else if strOptTruthy pe.tag then process_pull_event pe.race db pe.repo (pe.tag.getD "") pe.now
  else (db, none)

/-- Lines 329-341: the dispatcher loop, threading the store, catching each
pair's exception (`except Exception: logger.exception(...)`) and counting the
pairs processed without error. -/
def webhookLoop (isDel : Bool) : Store → Nat → List PairEnv → Store × Nat
  | db, cnt, [] => (db, cnt)
  | db, cnt, pe :: rest =>
    let r := pairAction isDel db pe
    webhookLoop isDel r.1 (if r.2.isNone then cnt + 1 else cnt) rest

/-- Specification-side view of the dispatcher: the outcome (error or not) of
every pair, in order, with the store threaded through all pairs regardless of
failures. -/
def dispatchOutcomes (isDel : Bool) : Store → List PairEnv → List (Option PyErr)
  | _, [] => []
  | db, pe :: rest =>
    (pairAction isDel db pe).2 :: dispatchOutcomes isDel (pairAction isDel db pe).1 rest

/-- Specification-side view of the dispatcher: the final store after all
pairs have been attempted. -/
def dispatchFinal (isDel : Bool) : Store → List PairEnv → Store
  | db, [] => db
  | db, pe :: rest => dispatchFinal isDel (pairAction isDel db pe).1 rest

/-- The dispatcher loop refines the specification view, for any starting
count. -/
theorem webhookLoop_spec (isDel : Bool) (items : List PairEnv) : ∀ (db : Store) (cnt : Nat),
    webhookLoop isDel db cnt items =
      (dispatchFinal isDel db items,
        cnt + (dispatchOutcomes isDel db items).countP (fun e => e.isNone)) := by
  induction items with
  | nil => intro db cnt; rfl
  | cons pe rest ih =>
    intro db cnt
    simp only [webhookLoop, dispatchFinal, dispatchOutcomes, ih, List.countP_cons]
    cases hr : (pairAction isDel db pe).2 <;> simp [Option.isNone]
    all_goals omega

/-- C9, confirmed.  The dispatcher (i) returns exactly the count of pairs
whose processing raised no error, with the store threaded through every pair
— a failing pair's exception is caught and does not prevent the later pairs,
every pair of the list receiving an outcome; (ii) for a delete-classified
event each pair goes to reconcileDelete; (iii) for a push-classified event
reconcilePush is called exactly for the pairs with a truthy tag, and a pair
with an absent (or empty) tag is a no-op with no error, still counted as
processed. -/
theorem c9_dispatcher :
    (∀ (isDel : Bool) (db : Store) (items : List PairEnv),
      webhookLoop isDel db 0 items =
        (dispatchFinal isDel db items,
          (dispatchOutcomes isDel db items).countP (fun e => e.isNone))) ∧
    (∀ (isDel : Bool) (db : Store) (items : List PairEnv),
      (dispatchOutcomes isDel db items).length = items.length) ∧
    (∀ (db : Store) (pe : PairEnv),
      pairAction true db pe = process_delete_event pe.race db pe.repo pe.tag pe.now) ∧
    (∀ (db : Store) (pe : PairEnv), strOptTruthy pe.tag = true →
      pairAction false db pe = process_pull_event pe.race db pe.repo (pe.tag.getD "") pe.now) ∧
    (∀ (db : Store) (pe : PairEnv), strOptTruthy pe.tag = false →
      pairAction false db pe = (db, none)) := by
  refine ⟨?_, ?_, ?_, ?_, ?_⟩
  · intro isDel db items
    simpa using webhookLoop_spec isDel items db 0
  · intro isDel db items
    induction items generalizing db with
    | nil => rfl
    | cons pe rest ih => simp [dispatchOutcomes, ih]
  · intro db pe
    rfl
  · intro db pe h
    simp [pairAction, h]
  · intro db pe h
    simp [pairAction, h]

/-- C9, witness: a push-classified pair with an absent tag is a no-op with no
error. -/
theorem c9_dispatcher_witness :
    pairAction false Store.empty ⟨"r", none, Race.quiet, 0⟩ = (Store.empty, none) :=
  c9_dispatcher.2.2.2.2 Store.empty ⟨"r", none, Race.quiet, 0⟩ rfl
